import Mathlib

/-!
Verification of the SceneIt swipe-session core.

This file gives a shallow embedding, in Lean, of the client-side logic of the
SceneIt movie application: the swipe gesture classifier and animation lock of
`MovieSwiper.tsx`, the session liked/disliked accumulators and the
move-to-disliked reconciliation of the two `App.tsx` variants, the filter
toggles of `LikedMoviesView.tsx`, the render-key fallback of the card grids,
the debounced preference auto-save, the in-memory movie cache, and the
invalid-id guard of `HomePage.tsx`.  Each definition is translated from the
TypeScript source; theorems settle the specified properties against these
definitions.
-/

/-- Model of a JavaScript number as it appears in a `tmdbId` field: it can be
`undefined` (missing field), `NaN`, one of the two infinities, or an actual
integer value.  Catalog ids are integers, so the finite case carries an `Int`. -/
inductive JSNum where
  | undef : JSNum
  | nan : JSNum
  | posInf : JSNum
  | negInf : JSNum
  | num : Int → JSNum
deriving DecidableEq, Repr

/-- JavaScript truthiness of a number-typed field: `undefined`, `NaN` and `0`
are falsy, everything else (including the infinities) is truthy. -/
def JSNum.truthy : JSNum → Bool
  | .undef => false
  | .nan => false
  | .posInf => true
  | .negInf => true
  | .num n => n != 0

/-- The global JavaScript `isNaN` coerces its argument; `isNaN(undefined)` is
`true` because `Number(undefined)` is `NaN`. -/
def JSNum.isNaNGlobal : JSNum → Bool
  | .undef => true
  | .nan => true
  | _ => false

/-- The global JavaScript `isFinite`: true exactly for finite numbers
(`isFinite(undefined)` is false since `Number(undefined)` is `NaN`). -/
def JSNum.isFiniteGlobal : JSNum → Bool
  | .num _ => true
  | _ => false

/-- Decimal string of a natural number, embedding JavaScript number-to-string
conversion for non-negative integers (most significant digit first). -/
def jsNatToString (n : Nat) : String :=
  if n = 0 then "0" else ⟨(Nat.digits 10 n).reverse.map Nat.digitChar⟩

/-- JavaScript string conversion of an integer. -/
def jsIntToString (n : Int) : String :=
  if n < 0 then "-" ++ jsNatToString n.natAbs else jsNatToString n.natAbs

/- ------------------------------------------------------------------ -/
/- HomePage.handleLikeMovie (src/src/pages/HomePage.tsx)              -/
/- ------------------------------------------------------------------ -/

/-- The remote mutation issued by a like: the body `{ movieId }` of the POST to
`/api/user/movies/like`. -/
structure LikeRequest where
  movieId : String
deriving DecidableEq, Repr

/-- Embedding of `HomePage.handleLikeMovie`.  The function has no local state
updates at all; its only externally visible effect is the optional remote like
mutation, so it is modelled as returning the request it issues, if any.
`none` means the call was a complete no-op at the public interface.
The guards are, in source order: `if (!user) { onShowAuthPrompt(); return; }`
and `if (!movie.tmdbId || isNaN(movie.tmdbId) || !isFinite(movie.tmdbId)) return;`. -/
def handleLikeMovie (user : Bool) (tmdbId : JSNum) : Option LikeRequest :=
  if !user then none
  else if !tmdbId.truthy || tmdbId.isNaNGlobal || !tmdbId.isFiniteGlobal then none
  else
    match tmdbId with
    | .num n => some ⟨jsIntToString n⟩
    | _ => none

/-- C10: For every movie whose catalog ID is missing, NaN, or non-finite, the
like operation on the home page is a complete no-op at the public interface:
it issues no remote like mutation and performs no state update, so an invalid
ID is never transmitted to the persisted-collections collaborator. -/
theorem homepage_like_invalid_id_noop (user : Bool) (tmdbId : JSNum)
    (h : tmdbId = JSNum.undef ∨ tmdbId = JSNum.nan ∨ tmdbId.isFiniteGlobal = false) :
    handleLikeMovie user tmdbId = none := by
  rcases h with h | h | h
  · subst h; cases user <;> rfl
  · subst h; cases user <;> rfl
  · cases tmdbId <;> cases user <;> first | rfl | simp_all [JSNum.isFiniteGlobal]

/-- Witness for C10: a NaN catalog id (with a logged-in user) issues nothing. -/
theorem homepage_like_invalid_id_noop_witness :
    handleLikeMovie true JSNum.nan = none :=
  homepage_like_invalid_id_noop true JSNum.nan (Or.inr (Or.inl rfl))

/- ------------------------------------------------------------------ -/
/- MovieSwiper gesture release classifier (src/src/components/MovieSwiper.tsx) -/
/- ------------------------------------------------------------------ -/

/-- A committed swipe direction. -/
inductive Dir where
  | left : Dir
  | right : Dir
  | up : Dir
deriving DecidableEq, Repr

/-- Outcome of releasing a drag gesture. -/
inductive ReleaseOutcome where
  | commit : Dir → ReleaseOutcome
  | cancel : ReleaseOutcome
deriving DecidableEq, Repr

/-- The drag commit threshold, `const threshold = 100` in `handleMouseUp` and
`handleTouchEnd`. -/
def swipeThreshold : Int := 100

/-- Embedding of the release classification shared by `handleMouseUp` and
`handleTouchEnd` (`dragOffset` is `(x, y)`):
`if (dragOffset.y < -threshold && Math.abs(dragOffset.x) < threshold)` commit
up, `else if (Math.abs(dragOffset.x) > threshold)` commit by the sign of `x`,
else snap back to center. -/
def classifyRelease (x y : Int) : ReleaseOutcome :=
  if y < -swipeThreshold ∧ |x| < swipeThreshold then .commit .up
  else if |x| > swipeThreshold then .commit (if 0 < x then .right else .left)
  else .cancel

/-- The release classification as the specification sentences describe it
(refinement reference, written from the spec, not from the code): horizontal
commit requires `|x| > 100` AND `|x| ≥ |y|`; up requires `y < -100` and
`|x| < 100`; everything else cancels. -/
def specClassifyRelease (x y : Int) : ReleaseOutcome :=
  if |x| > swipeThreshold ∧ |x| ≥ |y| then .commit (if 0 < x then .right else .left)
  else if y < -swipeThreshold ∧ |x| < swipeThreshold then .commit .up
  else .cancel

/-- Counterexample for C3: at release offset `(150, -300)` the code commits
"right" (the horizontal branch has no `|x| ≥ |y|` test), while the claimed
classification cancels there, because `|x| < |y|` rules out a horizontal
commit and `|x| ≥ 100` rules out an upward commit. -/
theorem classify_release_claim_false_at_150_neg300 :
    classifyRelease 150 (-300) = ReleaseOutcome.commit Dir.right ∧
      specClassifyRelease 150 (-300) = ReleaseOutcome.cancel := by
  constructor <;> decide

/- ------------------------------------------------------------------ -/
/- MovieSwiper interaction state machine (src/src/components/MovieSwiper.tsx) -/
/- ------------------------------------------------------------------ -/

/-- The React state of `MovieSwiper`: `currentIndex`, `swipeDirection`,
`isDragging`, `dragOffset`, `startPos`, `isAnimating`, `showRatingModal`. -/
structure SwiperState where
  currentIndex : Nat
  swipeDirection : Option Dir
  isAnimating : Bool
  isDragging : Bool
  dragOffsetX : Int
  dragOffsetY : Int
  startX : Int
  startY : Int
  showRatingModal : Bool
deriving DecidableEq, Repr

/-- Initial `useState` values of `MovieSwiper`. -/
def initSwiper : SwiperState :=
  { currentIndex := 0, swipeDirection := none, isAnimating := false,
    isDragging := false, dragOffsetX := 0, dragOffsetY := 0,
    startX := 0, startY := 0, showRatingModal := false }

/-- The discrete events `MovieSwiper` reacts to.  `button d` is a click on one
of the explicit like/dislike/watched buttons (each calls `handleSwipe`);
`animTimeout` is the 400 ms `setTimeout` callback scheduled by `handleSwipe`;
`watchSubmit`/`watchCancel` come from the rating modal. -/
inductive SwEvent where
  | mouseDown (x y : Int)
  | mouseMove (x y : Int)
  | mouseUp
  | touchStart (x y : Int)
  | touchMove (x y : Int)
  | touchEnd
  | button (d : Dir)
  | animTimeout
  | watchSubmit
  | watchCancel
deriving DecidableEq, Repr

/-- The events that are commit entry points in the sense of C8: gesture
starts, moves, releases, and button presses (everything except the animation
timeout and the rating-modal callbacks). -/
def SwEvent.isEntryPoint : SwEvent → Bool
  | .animTimeout => false
  | .watchSubmit => false
  | .watchCancel => false
  | _ => true

/-- Embedding of `handleSwipe`: rejected if `isAnimating || swipeDirection`;
otherwise sets the animation flag and direction and stops dragging (the
decision itself is dispatched later, by the 400 ms timeout). -/
def handleSwipeStep (s : SwiperState) (d : Dir) : SwiperState :=
  if s.isAnimating || s.swipeDirection.isSome then s
  else { s with isAnimating := true, swipeDirection := some d, isDragging := false }

/-- Embedding of the release handlers `handleMouseUp` / `handleTouchEnd`:
guarded by `!isDragging || swipeDirection`; otherwise stops dragging and
either routes into `handleSwipe` or snaps the offset back to `(0, 0)`. -/
def releaseStep (s : SwiperState) : SwiperState :=
  if !s.isDragging || s.swipeDirection.isSome then s
  else
    let s1 := { s with isDragging := false }
    match classifyRelease s.dragOffsetX s.dragOffsetY with
    | .commit d => handleSwipeStep s1 d
    | .cancel => { s1 with dragOffsetX := 0, dragOffsetY := 0 }

/-- One step of the `MovieSwiper` machine.  The second component is the
decision committed by the step, if any: the 400 ms timeout dispatches
`onLike`/`onDislike` and advances the cursor for horizontal swipes (for "up"
it opens the rating modal instead), and `watchSubmit` completes a watch
decision.  All gesture and button handlers only ever schedule — they never
commit directly. -/
def swStep (s : SwiperState) : SwEvent → SwiperState × Option Dir
  | .mouseDown x y =>
      if s.swipeDirection.isSome then (s, none)
      else ({ s with isDragging := true, startX := x, startY := y }, none)
  | .mouseMove x y =>
      if !s.isDragging || s.swipeDirection.isSome then (s, none)
      else ({ s with dragOffsetX := x - s.startX, dragOffsetY := y - s.startY }, none)
  | .mouseUp => (releaseStep s, none)
  | .touchStart x y =>
      if s.swipeDirection.isSome then (s, none)
      else ({ s with isDragging := true, startX := x, startY := y }, none)
  | .touchMove x y =>
      if !s.isDragging || s.swipeDirection.isSome then (s, none)
      else ({ s with dragOffsetX := x - s.startX, dragOffsetY := y - s.startY }, none)
  | .touchEnd => (releaseStep s, none)
  | .button d => (handleSwipeStep s d, none)
  | .animTimeout =>
      match s.swipeDirection with
      | some .right =>
          ({ s with currentIndex := s.currentIndex + 1, swipeDirection := none,
                    dragOffsetX := 0, dragOffsetY := 0, isAnimating := false },
           some .right)
      | some .left =>
          ({ s with currentIndex := s.currentIndex + 1, swipeDirection := none,
                    dragOffsetX := 0, dragOffsetY := 0, isAnimating := false },
           some .left)
      | some .up => ({ s with showRatingModal := true }, none)
      | none => (s, none)
  | .watchSubmit =>
      if s.showRatingModal then
        ({ s with currentIndex := s.currentIndex + 1, swipeDirection := none,
                  dragOffsetX := 0, dragOffsetY := 0, isAnimating := false,
                  showRatingModal := false },
         some .up)
      else (s, none)
  | .watchCancel =>
      if s.showRatingModal then
        ({ s with swipeDirection := none, dragOffsetX := 0, dragOffsetY := 0,
                  isAnimating := false, showRatingModal := false },
         none)
      else (s, none)

/-- C8: while a commit animation is in flight (the animating/direction flags
are set, for the fixed 400 ms window), every commit entry point — gesture
start, move, release, and button press — is a no-op: the state is unchanged
and no decision is committed, so one release produces at most one committed
decision. -/
theorem swiper_no_double_commit (s : SwiperState) (d : Dir) (ev : SwEvent)
    (hdir : s.swipeDirection = some d) (hanim : s.isAnimating = true)
    (hev : ev.isEntryPoint = true) :
    swStep s ev = (s, none) := by
  have hsome : s.swipeDirection.isSome = true := by rw [hdir]; rfl
  cases ev <;> simp_all [swStep, SwEvent.isEntryPoint, releaseStep, handleSwipeStep]

/-- Witness for C8: in a state animating a "right" commit, a mouse release is
a no-op. -/
theorem swiper_no_double_commit_witness :
    swStep { initSwiper with swipeDirection := some Dir.right, isAnimating := true }
        SwEvent.mouseUp
      = ({ initSwiper with swipeDirection := some Dir.right, isAnimating := true }, none) :=
  swiper_no_double_commit _ Dir.right SwEvent.mouseUp rfl rfl rfl

/-- C3 (amended): the gesture commits "left" or "right" (by the sign of `x`)
exactly when `|x| > 100` — the relative size of `|y|` is not consulted; it
commits "up" exactly when `y < -100` and `|x| < 100`; in every other case it
cancels, resetting the offset to `(0, 0)` with no commit. -/
theorem classify_release_characterization (x y : Int) :
    (classifyRelease x y = ReleaseOutcome.commit Dir.right ↔ 100 < x) ∧
    (classifyRelease x y = ReleaseOutcome.commit Dir.left ↔ x < -100) ∧
    (classifyRelease x y = ReleaseOutcome.commit Dir.up ↔ (y < -100 ∧ |x| < 100)) ∧
    (classifyRelease x y = ReleaseOutcome.cancel ↔
      (|x| ≤ 100 ∧ ¬(y < -100 ∧ |x| < 100))) ∧
    (∀ s : SwiperState, s.isDragging = true → s.swipeDirection = none →
      s.dragOffsetX = x → s.dragOffsetY = y →
      classifyRelease x y = ReleaseOutcome.cancel →
      releaseStep s = { s with isDragging := false, dragOffsetX := 0, dragOffsetY := 0 }) := by
  have hreset : ∀ s : SwiperState, s.isDragging = true → s.swipeDirection = none →
      s.dragOffsetX = x → s.dragOffsetY = y →
      classifyRelease x y = ReleaseOutcome.cancel →
      releaseStep s
        = { s with isDragging := false, dragOffsetX := 0, dragOffsetY := 0 } := by
    intro s hd hdir hx hy hc
    simp [releaseStep, hd, hdir, hx, hy, hc]
  refine ⟨?_, ?_, ?_, ?_, hreset⟩ <;> clear hreset <;>
    unfold classifyRelease swipeThreshold <;>
    rcases abs_cases x with ⟨he, hs⟩ | ⟨he, hs⟩ <;> rw [he] <;> split_ifs <;>
    simp_all <;> omega

/-- Witness for C3 (amended): the characterization at the concrete release
offset `(150, 50)`. -/
theorem classify_release_characterization_witness :
    (classifyRelease 150 50 = ReleaseOutcome.commit Dir.right ↔ (100 : Int) < 150) ∧
    (classifyRelease 150 50 = ReleaseOutcome.commit Dir.left ↔ (150 : Int) < -100) ∧
    (classifyRelease 150 50 = ReleaseOutcome.commit Dir.up ↔
      ((50 : Int) < -100 ∧ |(150 : Int)| < 100)) ∧
    (classifyRelease 150 50 = ReleaseOutcome.cancel ↔
      (|(150 : Int)| ≤ 100 ∧ ¬((50 : Int) < -100 ∧ |(150 : Int)| < 100))) ∧
    (∀ s : SwiperState, s.isDragging = true → s.swipeDirection = none →
      s.dragOffsetX = 150 → s.dragOffsetY = 50 →
      classifyRelease 150 50 = ReleaseOutcome.cancel →
      releaseStep s
        = { s with isDragging := false, dragOffsetX := 0, dragOffsetY := 0 }) :=
  classify_release_characterization 150 50

/- ------------------------------------------------------------------ -/
/- MovieSwiper completion effect (src/src/components/MovieSwiper.tsx) -/
/- ------------------------------------------------------------------ -/

/-- Embedding of the `useEffect` guard that invokes `onFinish`:
`if (currentIndex >= movies.length && movies.length > 0) onFinish()`.
The effect is keyed on `currentIndex` (and the queue length), so it runs once
per cursor value: on mount with cursor `0` and after each commit. -/
def finishFires (len idx : Nat) : Bool :=
  decide (len ≤ idx) && decide (0 < len)

/-- Number of `onFinish` invocations over the lifetime of a queue of length
`len` that receives exactly `len` committed decisions: the cursor takes the
values `0, 1, …, len`, and the effect runs at each value. -/
def finishCount (len : Nat) : Nat :=
  (List.range (len + 1)).countP (fun idx => finishFires len idx)

/-- A full commit cycle for one card: an accepted `handleSwipe` (here via a
button press) followed by its 400 ms animation timeout. -/
def commitCycle (s : SwiperState) (d : Dir) : SwiperState × Option Dir :=
  swStep (swStep s (.button d)).1 .animTimeout

/-- C2: on a queue of length `N ≥ 1`, the completion callback fires exactly
once over the cursor values `0 … N` reached by `N` commits, never at a cursor
value below `N`; and each committed decision advances the cursor by exactly
one (shown for a like/dislike commit cycle from a quiescent state). -/
theorem swiper_onfinish_exactly_once (N : Nat) (hN : 1 ≤ N) :
    finishCount N = 1 ∧
    (∀ k, k < N → finishFires N k = false) ∧
    (∀ s : SwiperState, s.swipeDirection = none → s.isAnimating = false →
      ∀ d, d ≠ Dir.up →
        (commitCycle s d).1.currentIndex = s.currentIndex + 1 ∧
          (commitCycle s d).2 = some d) := by
  refine ⟨?_, ?_, ?_⟩
  · unfold finishCount
    rw [List.range_succ, List.countP_append]
    have h1 : (List.range N).countP (fun idx => finishFires N idx) = 0 := by
      rw [List.countP_eq_zero]
      intro k hk
      have : k < N := List.mem_range.mp hk
      simp [finishFires]
      omega
    have hNfire : finishFires N N = true := by
      simp [finishFires]
      omega
    have h2 : ([N] : List Nat).countP (fun idx => finishFires N idx) = 1 := by
      simp [List.countP_cons, hNfire]
    omega
  · intro k hk
    simp [finishFires]
    omega
  · intro s hdir hanim d hd
    cases d <;>
      simp_all [commitCycle, swStep, handleSwipeStep, hdir, hanim]

/-- Witness for C2: a queue of length 3 fires completion exactly once, not
before the third commit, and a concrete commit cycle advances the cursor. -/
theorem swiper_onfinish_exactly_once_witness :
    finishCount 3 = 1 ∧
    (∀ k, k < 3 → finishFires 3 k = false) ∧
    (∀ s : SwiperState, s.swipeDirection = none → s.isAnimating = false →
      ∀ d, d ≠ Dir.up →
        (commitCycle s d).1.currentIndex = s.currentIndex + 1 ∧
          (commitCycle s d).2 = some d) :=
  swiper_onfinish_exactly_once 3 (by decide)

/- ------------------------------------------------------------------ -/
/- Session decision sets (src/unnamed/part_001, App.tsx handlers)     -/
/- ------------------------------------------------------------------ -/

/-- The session-scoped client state of `App`: `sessionLikedMovies`,
`sessionDislikedMovies` (lists of movies, here their catalog ids, since every
membership test in the handlers compares `tmdbId`), and the
`favoriteMovieIds` set. -/
structure SessionState where
  liked : List Nat
  disliked : List Nat
  favs : List Nat
deriving DecidableEq, Repr

/-- Initial session state: all collections empty. -/
def initSession : SessionState := { liked := [], disliked := [], favs := [] }

/-- Embedding of `handleLike`'s session update: append the movie to
`sessionLikedMovies` unless some entry already has the same `tmdbId`.
The disliked list is not touched. -/
def sessionLike (id : Nat) (s : SessionState) : SessionState :=
  { s with liked := if s.liked.contains id then s.liked else s.liked ++ [id] }

/-- Embedding of `handleDislike`'s session update (mirror of `sessionLike`). -/
def sessionDislike (id : Nat) (s : SessionState) : SessionState :=
  { s with disliked := if s.disliked.contains id then s.disliked else s.disliked ++ [id] }

/-- Embedding of `handleMoveToDisliked`: when the remote call succeeds
(`ok` covers both the logged-in guard and `response.ok`), the id is deleted
from `favoriteMovieIds`, the moved movie is looked up in `sessionLikedMovies`,
removed from it, and — only if it was found there — appended to
`sessionDislikedMovies`. -/
def sessionMoveToDisliked (id : Nat) (ok : Bool) (s : SessionState) : SessionState :=
  if ok then
    let found := s.liked.contains id
    { s with
      favs := s.favs.filter (fun x => x != id),
      liked := s.liked.filter (fun x => x != id),
      disliked := if found then s.disliked ++ [id] else s.disliked }
  else s

/-- Embedding of `handleMoveToLiked` (mirror image; favorites untouched). -/
def sessionMoveToLiked (id : Nat) (ok : Bool) (s : SessionState) : SessionState :=
  if ok then
    let found := s.disliked.contains id
    { s with
      disliked := s.disliked.filter (fun x => x != id),
      liked := if found then s.liked ++ [id] else s.liked }
  else s

/-- Embedding of `handleClearLikedMovies` (session part). -/
def sessionClearLiked (ok : Bool) (s : SessionState) : SessionState :=
  if ok then { s with liked := [] } else s

/-- Embedding of `handleClearDislikedMovies` (session part). -/
def sessionClearDisliked (ok : Bool) (s : SessionState) : SessionState :=
  if ok then { s with disliked := [] } else s

/-- Embedding of `handleLogoClick`: both session lists are cleared. -/
def sessionGoHome (s : SessionState) : SessionState :=
  { s with liked := [], disliked := [] }

/-- The session-level operations of `App` that touch the decision sets. -/
inductive SessionEvent where
  | like (id : Nat)
  | dislike (id : Nat)
  | moveToDisliked (id : Nat) (ok : Bool)
  | moveToLiked (id : Nat) (ok : Bool)
  | clearLiked (ok : Bool)
  | clearDisliked (ok : Bool)
  | goHome
deriving DecidableEq, Repr

/-- Dispatch one session event to its handler. -/
def sessionStep (s : SessionState) : SessionEvent → SessionState
  | .like id => sessionLike id s
  | .dislike id => sessionDislike id s
  | .moveToDisliked id ok => sessionMoveToDisliked id ok s
  | .moveToLiked id ok => sessionMoveToLiked id ok s
  | .clearLiked ok => sessionClearLiked ok s
  | .clearDisliked ok => sessionClearDisliked ok s
  | .goHome => sessionGoHome s

/-- Run a sequence of session events from the initial state. -/
def runSession (evs : List SessionEvent) : SessionState :=
  evs.foldl sessionStep initSession

/-- The catalog ids receiving a like or dislike commit in a sequence, with
multiplicity. -/
def commitIds : List SessionEvent → List Nat
  | [] => []
  | .like id :: rest => id :: commitIds rest
  | .dislike id :: rest => id :: commitIds rest
  | _ :: rest => commitIds rest

/-- `List.contains` agrees with membership on `Nat` lists. -/
theorem list_contains_mem {l : List Nat} {a : Nat} (h : l.contains a = true) : a ∈ l := by
  simpa using h

/-- Membership gives `List.contains` on `Nat` lists. -/
theorem list_mem_contains {l : List Nat} {a : Nat} (h : a ∈ l) : l.contains a = true := by
  simpa using h

/-- Counterexample for C1: a dislike commit on id 5 followed by a like commit
on id 5 leaves 5 in both session sets — `handleLike` never removes the id
from the disliked list. -/
theorem session_sets_disjoint_claim_false :
    5 ∈ (runSession [SessionEvent.dislike 5, SessionEvent.like 5]).liked ∧
      5 ∈ (runSession [SessionEvent.dislike 5, SessionEvent.like 5]).disliked := by
  decide

/-- Auxiliary invariant for C1: if the two session sets are disjoint, every
member of either set was committed earlier (is in `C`), and the remaining
events commit each id at most once and only ids outside `C`, then the sets
stay disjoint. -/
theorem session_inv_aux (evs : List SessionEvent) :
    ∀ (s : SessionState) (C : List Nat),
      (∀ id, id ∈ s.liked → id ∉ s.disliked) →
      (∀ id, id ∈ s.liked → id ∈ C) →
      (∀ id, id ∈ s.disliked → id ∈ C) →
      (commitIds evs).Nodup →
      (∀ id, id ∈ commitIds evs → id ∉ C) →
      ∀ id, id ∈ (evs.foldl sessionStep s).liked →
        id ∉ (evs.foldl sessionStep s).disliked := by
  induction evs with
  | nil =>
      intro s C hdisj _ _ _ _
      simpa using hdisj
  | cons e rest ih =>
      intro s C hdisj hL hD hnodup hfresh
      rw [List.foldl_cons]
      cases e with
      | like id =>
          have hid : id ∉ C := hfresh id (by simp [commitIds])
          have hnd : (commitIds rest).Nodup ∧ id ∉ commitIds rest := by
            have := hnodup
            simp [commitIds, List.nodup_cons] at this
            exact ⟨this.2, this.1⟩
          refine ih _ (id :: C) ?_ ?_ ?_ hnd.1 ?_
          · intro x hx
            simp only [sessionStep, sessionLike] at hx ⊢
            split at hx
            · exact hdisj x hx
            · rcases List.mem_append.mp hx with hx | hx
              · exact hdisj x hx
              · simp at hx
                subst hx
                intro hc
                exact hid (hD x hc)
          · intro x hx
            simp only [sessionStep, sessionLike] at hx
            split at hx
            · exact List.mem_cons_of_mem _ (hL x hx)
            · rcases List.mem_append.mp hx with hx | hx
              · exact List.mem_cons_of_mem _ (hL x hx)
              · simp at hx
                subst hx
                exact List.mem_cons_self _ _
          · intro x hx
            exact List.mem_cons_of_mem _ (hD x hx)
          · intro x hx
            have hxid : x ≠ id := by
              intro h
              subst h
              exact hnd.2 hx
            have : x ∉ C := by
              apply hfresh
              simp [commitIds]
              right
              exact hx
            simp [hxid, this]
      | dislike id =>
          have hid : id ∉ C := hfresh id (by simp [commitIds])
          have hnd : (commitIds rest).Nodup ∧ id ∉ commitIds rest := by
            have := hnodup
            simp [commitIds, List.nodup_cons] at this
            exact ⟨this.2, this.1⟩
          refine ih _ (id :: C) ?_ ?_ ?_ hnd.1 ?_
          · intro x hx hx2
            simp only [sessionStep, sessionDislike] at hx hx2
            split at hx2
            · exact hdisj x hx hx2
            · rcases List.mem_append.mp hx2 with h2 | h2
              · exact hdisj x hx h2
              · simp at h2
                subst h2
                exact hid (hL x hx)
          · intro x hx
            exact List.mem_cons_of_mem _ (hL x hx)
          · intro x hx
            simp only [sessionStep, sessionDislike] at hx
            split at hx
            · exact List.mem_cons_of_mem _ (hD x hx)
            · rcases List.mem_append.mp hx with hx | hx
              · exact List.mem_cons_of_mem _ (hD x hx)
              · simp at hx
                subst hx
                exact List.mem_cons_self _ _
          · intro x hx
            have hxid : x ≠ id := by
              intro h
              subst h
              exact hnd.2 hx
            have : x ∉ C := by
              apply hfresh
              simp [commitIds]
              right
              exact hx
            simp [hxid, this]
      | moveToDisliked id ok =>
          refine ih _ C ?_ ?_ ?_ ?_ ?_
          · intro x hx hx2
            simp only [sessionStep, sessionMoveToDisliked] at hx hx2
            by_cases hok : ok = true
            · simp only [hok, if_pos] at hx hx2
              simp only [List.mem_filter, bne_iff_ne, ne_eq, decide_eq_true_eq] at hx
              split at hx2
              · rcases List.mem_append.mp hx2 with h2 | h2
                · exact hdisj x hx.1 h2
                · simp at h2
                  subst h2
                  simp at hx
              · exact hdisj x hx.1 hx2
            · simp only [Bool.not_eq_true] at hok
              simp only [hok] at hx hx2
              simp at hx hx2
              exact hdisj x hx hx2
          · intro x hx
            simp only [sessionStep, sessionMoveToDisliked] at hx
            by_cases hok : ok = true
            · simp only [hok, if_pos] at hx
              simp only [List.mem_filter] at hx
              exact hL x hx.1
            · simp only [Bool.not_eq_true] at hok
              simp only [hok] at hx
              simp at hx
              exact hL x hx
          · intro x hx
            simp only [sessionStep, sessionMoveToDisliked] at hx
            by_cases hok : ok = true
            · simp only [hok, if_pos] at hx
              split at hx
              next hfound =>
                rcases List.mem_append.mp hx with h2 | h2
                · exact hD x h2
                · simp at h2
                  subst h2
                  exact hL x (list_contains_mem hfound)
              next =>
                exact hD x hx
            · simp only [Bool.not_eq_true] at hok
              simp only [hok] at hx
              simp at hx
              exact hD x hx
          · exact (by simpa [commitIds] using hnodup)
          · intro x hx
            exact hfresh x (by simpa [commitIds] using hx)
      | moveToLiked id ok =>
          refine ih _ C ?_ ?_ ?_ ?_ ?_
          · intro x hx hx2
            simp only [sessionStep, sessionMoveToLiked] at hx hx2
            by_cases hok : ok = true
            · simp only [hok, if_pos] at hx hx2
              simp only [List.mem_filter, bne_iff_ne, ne_eq, decide_eq_true_eq] at hx2
              split at hx
              next =>
                rcases List.mem_append.mp hx with h2 | h2
                · exact hdisj x h2 hx2.1
                · simp at h2
                  subst h2
                  simp at hx2
              next =>
                exact hdisj x hx hx2.1
            · simp only [Bool.not_eq_true] at hok
              simp only [hok] at hx hx2
              simp at hx hx2
              exact hdisj x hx hx2
          · intro x hx
            simp only [sessionStep, sessionMoveToLiked] at hx
            by_cases hok : ok = true
            · simp only [hok, if_pos] at hx
              split at hx
              next hfound =>
                rcases List.mem_append.mp hx with h2 | h2
                · exact hL x h2
                · simp at h2
                  subst h2
                  exact hD x (list_contains_mem hfound)
              next =>
                exact hL x hx
            · simp only [Bool.not_eq_true] at hok
              simp only [hok] at hx
              simp at hx
              exact hL x hx
          · intro x hx
            simp only [sessionStep, sessionMoveToLiked] at hx
            by_cases hok : ok = true
            · simp only [hok, if_pos] at hx
              simp only [List.mem_filter] at hx
              exact hD x hx.1
            · simp only [Bool.not_eq_true] at hok
              simp only [hok] at hx
              simp at hx
              exact hD x hx
          · exact (by simpa [commitIds] using hnodup)
          · intro x hx
            exact hfresh x (by simpa [commitIds] using hx)
      | clearLiked ok =>
          refine ih _ C ?_ ?_ ?_ ?_ ?_
          · intro x hx
            by_cases hok : ok = true
            · simp [sessionStep, sessionClearLiked, hok] at hx
            · simp only [Bool.not_eq_true] at hok
              simp [sessionStep, sessionClearLiked, hok] at hx
              simp [sessionStep, sessionClearLiked, hok]
              exact hdisj x hx
          · intro x hx
            by_cases hok : ok = true
            · simp [sessionStep, sessionClearLiked, hok] at hx
            · simp only [Bool.not_eq_true] at hok
              simp [sessionStep, sessionClearLiked, hok] at hx
              exact hL x hx
          · intro x hx
            by_cases hok : ok = true
            · simp [sessionStep, sessionClearLiked, hok] at hx
              exact hD x hx
            · simp only [Bool.not_eq_true] at hok
              simp [sessionStep, sessionClearLiked, hok] at hx
              exact hD x hx
          · exact (by simpa [commitIds] using hnodup)
          · intro x hx
            exact hfresh x (by simpa [commitIds] using hx)
      | clearDisliked ok =>
          refine ih _ C ?_ ?_ ?_ ?_ ?_
          · intro x hx hx2
            by_cases hok : ok = true
            · simp [sessionStep, sessionClearDisliked, hok] at hx2
            · simp only [Bool.not_eq_true] at hok
              simp [sessionStep, sessionClearDisliked, hok] at hx hx2
              exact hdisj x hx hx2
          · intro x hx
            by_cases hok : ok = true
            · simp [sessionStep, sessionClearDisliked, hok] at hx
              exact hL x hx
            · simp only [Bool.not_eq_true] at hok
              simp [sessionStep, sessionClearDisliked, hok] at hx
              exact hL x hx
          · intro x hx
            by_cases hok : ok = true
            · simp [sessionStep, sessionClearDisliked, hok] at hx
            · simp only [Bool.not_eq_true] at hok
              simp [sessionStep, sessionClearDisliked, hok] at hx
              exact hD x hx
          · exact (by simpa [commitIds] using hnodup)
          · intro x hx
            exact hfresh x (by simpa [commitIds] using hx)
      | goHome =>
          refine ih _ C ?_ ?_ ?_ ?_ ?_
          · intro x hx
            simp [sessionStep, sessionGoHome] at hx
          · intro x hx
            simp [sessionStep, sessionGoHome] at hx
          · intro x hx
            simp [sessionStep, sessionGoHome] at hx
          · exact (by simpa [commitIds] using hnodup)
          · intro x hx
            exact hfresh x (by simpa [commitIds] using hx)

/-- C1 (amended): for sequences of decision commits in which no catalog id
receives more than one like/dislike commit (the per-card discipline of the
swipe queue), an id is never in both session sets; and a successful "move to
disliked" on `id` removes `id` from the liked set, and puts `id` in the
disliked set provided `id` was in the liked set when the move ran.  (As
stated, the claim is false: a like commit does not remove the id from the
disliked set — see the counterexample.) -/
theorem session_sets_disjoint_amended (evs : List SessionEvent)
    (hnodup : (commitIds evs).Nodup) :
    (∀ id, id ∈ (runSession evs).liked → id ∉ (runSession evs).disliked) ∧
    (∀ (s : SessionState) (id : Nat),
      id ∉ (sessionMoveToDisliked id true s).liked ∧
      (id ∈ s.liked → id ∈ (sessionMoveToDisliked id true s).disliked)) := by
  constructor
  · exact session_inv_aux evs initSession []
      (by intro id h; simp [initSession] at h)
      (by intro id h; simp [initSession] at h)
      (by intro id h; simp [initSession] at h)
      hnodup
      (by intro id _ h; simp at h)
  · intro s id
    constructor
    · simp [sessionMoveToDisliked, List.mem_filter]
    · intro hmem
      simp [sessionMoveToDisliked, hmem]

/-- Witness for C1 (amended): a concrete commit sequence with distinct
committed ids keeps the sets disjoint. -/
theorem session_sets_disjoint_amended_witness :
    (∀ id, id ∈ (runSession [SessionEvent.like 1, SessionEvent.dislike 2,
        SessionEvent.moveToDisliked 1 true]).liked →
      id ∉ (runSession [SessionEvent.like 1, SessionEvent.dislike 2,
        SessionEvent.moveToDisliked 1 true]).disliked) ∧
    (∀ (s : SessionState) (id : Nat),
      id ∉ (sessionMoveToDisliked id true s).liked ∧
      (id ∈ s.liked → id ∈ (sessionMoveToDisliked id true s).disliked)) :=
  session_sets_disjoint_amended
    [SessionEvent.like 1, SessionEvent.dislike 2, SessionEvent.moveToDisliked 1 true]
    (by decide)

/- ------------------------------------------------------------------ -/
/- Move-to-disliked reconciliation (src/unnamed/part_002, App.tsx variant) -/
/- ------------------------------------------------------------------ -/

/-- The client collection state of the `App` variant in which the
liked/disliked/favorite lists live locally alongside the session lists and
the favorite-id set (all represented by catalog ids, since every membership
test in the handler compares `tmdbId.toString()`). -/
structure AppCollections where
  likedMovies : List Nat
  dislikedMovies : List Nat
  favoriteMovies : List Nat
  favoriteMovieIds : List Nat
  sessionLikedMovies : List Nat
  sessionDislikedMovies : List Nat
deriving DecidableEq, Repr

/-- The empty collection state. -/
def emptyCollections : AppCollections :=
  { likedMovies := [], dislikedMovies := [], favoriteMovies := [],
    favoriteMovieIds := [], sessionLikedMovies := [], sessionDislikedMovies := [] }

/-- Embedding of `handleMoveToDisliked` in the collection-bearing `App`
variant.  When the remote call reports success (`ok`, covering the logged-in
guard and `response.ok`), the handler looks the movie up in the liked,
favorite, or session-liked lists (in that order, against the pre-update
state), removes the id from the liked and session-liked lists, from the
favorite-id set and the favorite list, and — only when the lookup found a
movie — appends it (deduplicated) to the disliked and session-disliked
lists.  On failure nothing is changed. -/
def appMoveToDisliked (id : Nat) (ok : Bool) (s : AppCollections) : AppCollections :=
  if ok then
    let found := s.likedMovies.contains id || s.favoriteMovies.contains id ||
      s.sessionLikedMovies.contains id
    { likedMovies := s.likedMovies.filter (fun x => x != id),
      sessionLikedMovies := s.sessionLikedMovies.filter (fun x => x != id),
      favoriteMovieIds := s.favoriteMovieIds.filter (fun x => x != id),
      favoriteMovies := s.favoriteMovies.filter (fun x => x != id),
      dislikedMovies :=
        if found then
          if s.dislikedMovies.contains id then s.dislikedMovies
          else s.dislikedMovies ++ [id]
        else s.dislikedMovies,
      sessionDislikedMovies :=
        if found then
          if s.sessionDislikedMovies.contains id then s.sessionDislikedMovies
          else s.sessionDislikedMovies ++ [id]
        else s.sessionDislikedMovies }
  else s

/-- Counterexample for C4: a successful "move to disliked" on an id that is
in none of the liked/favorite/session lists (here id 5 on the empty state)
does not add the id to any disliked collection, contradicting the claimed
third postcondition. -/
theorem move_to_disliked_claim_false :
    (appMoveToDisliked 5 true emptyCollections).dislikedMovies.contains 5 = false ∧
      (appMoveToDisliked 5 true emptyCollections).sessionDislikedMovies.contains 5 = false := by
  decide

/-- C4 (amended): on reported success, the favorites (set and list) and the
liked collections (session and persisted views) no longer contain the id;
the disliked collections contain the id provided the id was present in the
liked, favorite, or session-liked collection when the handler ran (as it is
in the spec scenario).  Without reported success nothing is changed. -/
theorem move_to_disliked_postconditions (s : AppCollections) (id : Nat)
    (h : id ∈ s.likedMovies ∨ id ∈ s.favoriteMovies ∨ id ∈ s.sessionLikedMovies) :
    appMoveToDisliked id false s = s ∧
    id ∉ (appMoveToDisliked id true s).favoriteMovieIds ∧
    id ∉ (appMoveToDisliked id true s).favoriteMovies ∧
    id ∉ (appMoveToDisliked id true s).likedMovies ∧
    id ∉ (appMoveToDisliked id true s).sessionLikedMovies ∧
    id ∈ (appMoveToDisliked id true s).dislikedMovies ∧
    id ∈ (appMoveToDisliked id true s).sessionDislikedMovies := by
  refine ⟨rfl, ?_, ?_, ?_, ?_, ?_, ?_⟩
  · simp [appMoveToDisliked, List.mem_filter]
  · simp [appMoveToDisliked, List.mem_filter]
  · simp [appMoveToDisliked, List.mem_filter]
  · simp [appMoveToDisliked, List.mem_filter]
  · by_cases hd : id ∈ s.dislikedMovies <;>
      rcases h with h | h | h <;> simp [appMoveToDisliked, h, hd]
  · by_cases hd : id ∈ s.sessionDislikedMovies <;>
      rcases h with h | h | h <;> simp [appMoveToDisliked, h, hd]

/-- Witness for C4 (amended): moving id 5, which is in favorites, out of the
liked/favorite views and into the disliked ones. -/
theorem move_to_disliked_postconditions_witness :
    appMoveToDisliked 5 false
        { likedMovies := [5, 7], dislikedMovies := [], favoriteMovies := [5],
          favoriteMovieIds := [5], sessionLikedMovies := [],
          sessionDislikedMovies := [] }
      = { likedMovies := [5, 7], dislikedMovies := [], favoriteMovies := [5],
          favoriteMovieIds := [5], sessionLikedMovies := [],
          sessionDislikedMovies := [] } ∧
    5 ∉ (appMoveToDisliked 5 true
        { likedMovies := [5, 7], dislikedMovies := [], favoriteMovies := [5],
          favoriteMovieIds := [5], sessionLikedMovies := [],
          sessionDislikedMovies := [] }).favoriteMovieIds ∧
    5 ∉ (appMoveToDisliked 5 true
        { likedMovies := [5, 7], dislikedMovies := [], favoriteMovies := [5],
          favoriteMovieIds := [5], sessionLikedMovies := [],
          sessionDislikedMovies := [] }).favoriteMovies ∧
    5 ∉ (appMoveToDisliked 5 true
        { likedMovies := [5, 7], dislikedMovies := [], favoriteMovies := [5],
          favoriteMovieIds := [5], sessionLikedMovies := [],
          sessionDislikedMovies := [] }).likedMovies ∧
    5 ∉ (appMoveToDisliked 5 true
        { likedMovies := [5, 7], dislikedMovies := [], favoriteMovies := [5],
          favoriteMovieIds := [5], sessionLikedMovies := [],
          sessionDislikedMovies := [] }).sessionLikedMovies ∧
    5 ∈ (appMoveToDisliked 5 true
        { likedMovies := [5, 7], dislikedMovies := [], favoriteMovies := [5],
          favoriteMovieIds := [5], sessionLikedMovies := [],
          sessionDislikedMovies := [] }).dislikedMovies ∧
    5 ∈ (appMoveToDisliked 5 true
        { likedMovies := [5, 7], dislikedMovies := [], favoriteMovies := [5],
          favoriteMovieIds := [5], sessionLikedMovies := [],
          sessionDislikedMovies := [] }).sessionDislikedMovies :=
  move_to_disliked_postconditions
    { likedMovies := [5, 7], dislikedMovies := [], favoriteMovies := [5],
      favoriteMovieIds := [5], sessionLikedMovies := [],
      sessionDislikedMovies := [] } 5 (Or.inl (by decide))

/- ------------------------------------------------------------------ -/
/- LikedMoviesView filters (src/src/components/LikedMoviesView.tsx)   -/
/- ------------------------------------------------------------------ -/

/-- A movie as `LikedMoviesView` sees it.  `releaseYear` models
`new Date(movie.releaseDate).getFullYear()` for a present, non-empty
`releaseDate` (absent/empty dates are `none`); `voteAverage` is `none` when
the field is absent (a present value can still be `0`, which the code treats
as falsy). -/
structure ViewMovie where
  tmdbId : Nat
  title : String
  releaseYear : Option Int
  voteAverage : Option ℚ
  ageRating : Option String
  keywords : Option (List String)
  language : Option String
  director : Option String
  genres : Option (List String)
deriving DecidableEq, Repr

/-- `new Date(m.releaseDate || 0).getFullYear()`: epoch 1970 for a missing
date (used only by the sort comparators). -/
def yearOrEpoch (m : ViewMovie) : Int :=
  match m.releaseYear with
  | some y => y
  | none => 1970

/-- `m.voteAverage || 0` (used only by the rating sort comparators). -/
def ratingOrZero (m : ViewMovie) : ℚ :=
  match m.voteAverage with
  | some v => v
  | none => 0

/-- The `sortBy` select values; `unknown` is the switch default (comparator
constantly 0). -/
inductive SortKind where
  | title : SortKind
  | yearDesc : SortKind
  | yearAsc : SortKind
  | ratingDesc : SortKind
  | ratingAsc : SortKind
  | unknown : SortKind
deriving DecidableEq, Repr

/-- The filter state of `LikedMoviesView`: the five toggled selection sets,
the two optional ranges, and the sort order. -/
structure FilterState where
  genres : Finset String
  yearRange : Option (Int × Int)
  ratingRange : Option (ℚ × ℚ)
  ageRatings : Finset String
  keywords : Finset String
  languages : Finset String
  directors : Finset String
  sortBy : SortKind

/-- `movie.genres?.some(g => selectedGenres.has(g.name))`. -/
def genrePred (sel : Finset String) (m : ViewMovie) : Bool :=
  match m.genres with
  | some gs => gs.any (fun g => decide (g ∈ sel))
  | none => false

/-- Year-range predicate: movies without a release date are dropped. -/
def yearPred (r : Int × Int) (m : ViewMovie) : Bool :=
  match m.releaseYear with
  | some y => decide (r.1 ≤ y ∧ y ≤ r.2)
  | none => false

/-- Rating-range predicate: `if (!movie.voteAverage) return false` drops both
missing and zero ratings. -/
def ratingPred (r : ℚ × ℚ) (m : ViewMovie) : Bool :=
  match m.voteAverage with
  | some v => decide (v ≠ 0 ∧ r.1 ≤ v ∧ v ≤ r.2)
  | none => false

/-- `movie.ageRating && selectedAgeRatings.has(movie.ageRating)`. -/
def agePred (sel : Finset String) (m : ViewMovie) : Bool :=
  match m.ageRating with
  | some a => decide (a ∈ sel)
  | none => false

/-- `movie.keywords?.some(kw => selectedKeywords.has(kw))`. -/
def keywordPred (sel : Finset String) (m : ViewMovie) : Bool :=
  match m.keywords with
  | some ks => ks.any (fun k => decide (k ∈ sel))
  | none => false

/-- `movie.language && selectedLanguages.has(movie.language)`. -/
def langPred (sel : Finset String) (m : ViewMovie) : Bool :=
  match m.language with
  | some l => decide (l ∈ sel)
  | none => false

/-- `movie.director && selectedDirectors.has(movie.director)`. -/
def directorPred (sel : Finset String) (m : ViewMovie) : Bool :=
  match m.director with
  | some d => decide (d ∈ sel)
  | none => false

/-- Insert `a` after every element `b` with `le b a` (a stable insertion,
modelling the stable `Array.prototype.sort`). -/
def jsSortInsert {α : Type} (le : α → α → Bool) (a : α) : List α → List α
  | [] => [a]
  | b :: bs => if le b a then b :: jsSortInsert le a bs else a :: b :: bs

/-- Stable sort by insertion, modelling `filtered.sort(comparator)`. -/
def jsSort {α : Type} (le : α → α → Bool) (ms : List α) : List α :=
  ms.foldl (fun acc a => jsSortInsert le a acc) []

/-- The comparator of `filterAndSortMovies`, as a boolean "comparator ≤ 0"
relation (`localeCompare` on titles is modelled by lexicographic order). -/
def sortLe : SortKind → ViewMovie → ViewMovie → Bool
  | .title => fun a b => decide (¬ b.title < a.title)
  | .yearDesc => fun a b => decide (yearOrEpoch b ≤ yearOrEpoch a)
  | .yearAsc => fun a b => decide (yearOrEpoch a ≤ yearOrEpoch b)
  | .ratingDesc => fun a b => decide (ratingOrZero b ≤ ratingOrZero a)
  | .ratingAsc => fun a b => decide (ratingOrZero a ≤ ratingOrZero b)
  | .unknown => fun _ _ => true

/-- Embedding of `filterAndSortMovies`: each category filter is applied only
when its selection is non-empty (ranges: non-null), always starting from the
full input list `ms`, then the result is sorted. -/
def filterAndSortMovies (st : FilterState) (ms : List ViewMovie) : List ViewMovie :=
  let f1 := if 0 < st.genres.card then ms.filter (genrePred st.genres) else ms
  let f2 := match st.yearRange with
    | some r => f1.filter (yearPred r)
    | none => f1
  let f3 := match st.ratingRange with
    | some r => f2.filter (ratingPred r)
    | none => f2
  let f4 := if 0 < st.ageRatings.card then f3.filter (agePred st.ageRatings) else f3
  let f5 := if 0 < st.keywords.card then f4.filter (keywordPred st.keywords) else f4
  let f6 := if 0 < st.languages.card then f5.filter (langPred st.languages) else f5
  let f7 := if 0 < st.directors.card then f6.filter (directorPred st.directors) else f6
  jsSort (sortLe st.sortBy) f7

/-- Embedding of the `filteredMovies` memo: with the filter sidebar enabled
the displayed list is recomputed from the full `movies` input. -/
def displayedMovies (showFilters : Bool) (st : FilterState) (ms : List ViewMovie) :
    List ViewMovie :=
  if showFilters then filterAndSortMovies st ms else ms

/-- Embedding of the toggle pattern shared by `toggleGenre`,
`toggleAgeRating`, `toggleKeyword`, `toggleLanguage`, `toggleDirector`:
delete the value if present, insert it otherwise. -/
def toggleSelection (s : Finset String) (v : String) : Finset String :=
  if v ∈ s then s.erase v else insert v s

/-- `toggleGenre`. -/
def toggleGenre (st : FilterState) (v : String) : FilterState :=
  { st with genres := toggleSelection st.genres v }

/-- `toggleAgeRating`. -/
def toggleAgeRating (st : FilterState) (v : String) : FilterState :=
  { st with ageRatings := toggleSelection st.ageRatings v }

/-- `toggleKeyword`. -/
def toggleKeyword (st : FilterState) (v : String) : FilterState :=
  { st with keywords := toggleSelection st.keywords v }

/-- `toggleLanguage`. -/
def toggleLanguage (st : FilterState) (v : String) : FilterState :=
  { st with languages := toggleSelection st.languages v }

/-- `toggleDirector`. -/
def toggleDirector (st : FilterState) (v : String) : FilterState :=
  { st with directors := toggleSelection st.directors v }

/-- Toggling the same value twice restores the selection set. -/
theorem toggleSelection_involutive (s : Finset String) (v : String) :
    toggleSelection (toggleSelection s v) v = s := by
  unfold toggleSelection
  by_cases h : v ∈ s
  · rw [if_pos h, if_neg (Finset.not_mem_erase v s)]
    exact Finset.insert_erase h
  · rw [if_neg h, if_pos (Finset.mem_insert_self v s)]
    exact Finset.erase_insert h

/-- C6: toggling any filter value (genre, age rating, keyword, language,
director) twice in a row yields a displayed, filtered-and-sorted list
identical to the pre-toggle list — each toggle recomputes the display list
from the full unfiltered source. -/
theorem filter_toggle_involutive (showFilters : Bool) (st : FilterState)
    (ms : List ViewMovie) (v : String) :
    displayedMovies showFilters (toggleGenre (toggleGenre st v) v) ms
        = displayedMovies showFilters st ms ∧
    displayedMovies showFilters (toggleAgeRating (toggleAgeRating st v) v) ms
        = displayedMovies showFilters st ms ∧
    displayedMovies showFilters (toggleKeyword (toggleKeyword st v) v) ms
        = displayedMovies showFilters st ms ∧
    displayedMovies showFilters (toggleLanguage (toggleLanguage st v) v) ms
        = displayedMovies showFilters st ms ∧
    displayedMovies showFilters (toggleDirector (toggleDirector st v) v) ms
        = displayedMovies showFilters st ms := by
  refine ⟨?_, ?_, ?_, ?_, ?_⟩ <;>
    simp [toggleGenre, toggleAgeRating, toggleKeyword, toggleLanguage,
      toggleDirector, toggleSelection_involutive]

/-- A concrete filter state with nothing selected and title sort. -/
def sampleFilterState : FilterState :=
  { genres := ∅, yearRange := none, ratingRange := none, ageRatings := ∅,
    keywords := ∅, languages := ∅, directors := ∅, sortBy := SortKind.title }

/-- A concrete movie card for instantiating the toggle theorem. -/
def sampleMovie : ViewMovie :=
  { tmdbId := 1, title := "A", releaseYear := some 2000, voteAverage := some 7,
    ageRating := some "PG", keywords := some ["city"], language := some "English",
    director := some "D", genres := some ["Action"] }

/-- Witness for C6: double-toggling the genre "Action" (and one value in each
other category) on a concrete state and list changes nothing. -/
theorem filter_toggle_involutive_witness :
    displayedMovies true
        (toggleGenre (toggleGenre sampleFilterState "Action") "Action")
        [sampleMovie]
      = displayedMovies true sampleFilterState [sampleMovie] ∧
    displayedMovies true
        (toggleAgeRating (toggleAgeRating sampleFilterState "Action") "Action")
        [sampleMovie]
      = displayedMovies true sampleFilterState [sampleMovie] ∧
    displayedMovies true
        (toggleKeyword (toggleKeyword sampleFilterState "Action") "Action")
        [sampleMovie]
      = displayedMovies true sampleFilterState [sampleMovie] ∧
    displayedMovies true
        (toggleLanguage (toggleLanguage sampleFilterState "Action") "Action")
        [sampleMovie]
      = displayedMovies true sampleFilterState [sampleMovie] ∧
    displayedMovies true
        (toggleDirector (toggleDirector sampleFilterState "Action") "Action")
        [sampleMovie]
      = displayedMovies true sampleFilterState [sampleMovie] :=
  filter_toggle_involutive true sampleFilterState [sampleMovie] "Action"

/- ------------------------------------------------------------------ -/
/- Render keys of the card grids (src/src/components/LikedMoviesView.tsx) -/
/- ------------------------------------------------------------------ -/

/-- A rendered card entry: the raw `tmdbId` field (possibly missing, `NaN`,
or zero) and the title used by the fallback key. -/
structure CardEntry where
  tmdbId : JSNum
  title : String
deriving DecidableEq, Repr

/-- JavaScript string conversion of a number value, as React applies it to a
number-valued `key`. -/
def jsNumKeyString : JSNum → String
  | .undef => "undefined"
  | .nan => "NaN"
  | .posInf => "Infinity"
  | .negInf => "-Infinity"
  | .num n => jsIntToString n

/-- Embedding of the `safeKey` expression of the card grids:
`(movie.tmdbId && !isNaN(movie.tmdbId)) ? movie.tmdbId : `SEC-${index}-${movie.title}``
where `SEC` is the section tag `fav`, `movie`, or `disliked`. -/
def safeKey (secTag : String) (idx : Nat) (m : CardEntry) : String :=
  if m.tmdbId.truthy && !m.tmdbId.isNaNGlobal then jsNumKeyString m.tmdbId
  else secTag ++ "-" ++ jsNatToString idx ++ "-" ++ m.title

/-- The keys assigned by one section's `map((movie, index) => …)` render. -/
def keysOf (secTag : String) (ms : List CardEntry) : List String :=
  ms.enum.map (fun p => safeKey secTag p.1 p.2)

/-- Every character of the decimal string of a natural number is a digit. -/
theorem jsNatToString_data_digits (n : Nat) :
    ∀ c ∈ (jsNatToString n).data, c.isDigit = true := by
  unfold jsNatToString
  split
  · intro c hc
    have h0 : ("0" : String).data = ['0'] := rfl
    rw [h0] at hc
    simp at hc
    subst hc
    decide
  · intro c hc
    have hd : (⟨(Nat.digits 10 n).reverse.map Nat.digitChar⟩ : String).data
        = (Nat.digits 10 n).reverse.map Nat.digitChar := rfl
    rw [hd] at hc
    simp only [List.mem_map, List.mem_reverse] at hc
    obtain ⟨d, hdm, hdc⟩ := hc
    subst hdc
    have hlt : d < 10 := Nat.digits_lt_base (by norm_num) hdm
    interval_cases d <;> decide

/-- The decimal string of a natural number is never empty. -/
theorem jsNatToString_ne_nil (n : Nat) : (jsNatToString n).data ≠ [] := by
  unfold jsNatToString
  split
  · decide
  · next h =>
    have hne : Nat.digits 10 n ≠ [] := Nat.digits_ne_nil_iff_ne_zero.mpr h
    intro hnil
    have h2 : (Nat.digits 10 n).reverse.map Nat.digitChar = [] := hnil
    simp at h2
    exact hne h2

/-- The decimal string of a natural number starts with a digit. -/
theorem jsNatToString_head_digit (n : Nat) :
    ∃ c, (jsNatToString n).data.head? = some c ∧ c.isDigit = true := by
  rcases hne : (jsNatToString n).data with _ | ⟨c, cs⟩
  · exact absurd hne (jsNatToString_ne_nil n)
  · refine ⟨c, by simp, ?_⟩
    apply jsNatToString_data_digits n
    rw [hne]
    exact List.mem_cons_self c cs

/-- The React key of an entry whose id passes the validity test starts with a
digit, a minus sign, or the letter of `Infinity`. -/
theorem validKey_head (id : JSNum) (hid : (id.truthy && !id.isNaNGlobal) = true) :
    ∃ c, (jsNumKeyString id).data.head? = some c ∧
      (c.isDigit = true ∨ c = '-' ∨ c = 'I') := by
  cases id with
  | undef => simp [JSNum.truthy] at hid
  | nan => simp [JSNum.truthy] at hid
  | posInf => exact ⟨'I', rfl, Or.inr (Or.inr rfl)⟩
  | negInf => exact ⟨'-', rfl, Or.inr (Or.inl rfl)⟩
  | num n =>
      show ∃ c, (jsIntToString n).data.head? = some c ∧ _
      unfold jsIntToString
      split
      · refine ⟨'-', ?_, Or.inr (Or.inl rfl)⟩
        have : (("-" ++ jsNatToString n.natAbs)).data
            = '-' :: (jsNatToString n.natAbs).data := rfl
        rw [this]
        rfl
      · obtain ⟨c, hc1, hc2⟩ := jsNatToString_head_digit n.natAbs
        exact ⟨c, hc1, Or.inl hc2⟩

/-- A fallback key starts with the first letter of its section tag. -/
theorem fallbackKey_head (secTag : String)
    (hsec : secTag = "fav" ∨ secTag = "movie" ∨ secTag = "disliked")
    (idx : Nat) (title : String) :
    ∃ c, (secTag ++ "-" ++ jsNatToString idx ++ "-" ++ title).data.head? = some c ∧
      (c = 'f' ∨ c = 'm' ∨ c = 'd') := by
  rcases hsec with h | h | h <;> subst h
  · exact ⟨'f', rfl, Or.inl rfl⟩
  · exact ⟨'m', rfl, Or.inr (Or.inl rfl)⟩
  · exact ⟨'d', rfl, Or.inr (Or.inr rfl)⟩

/-- C7: in a card grid with section tag `fav`, `movie`, or `disliked`, every
entry receives a render key (the keyed render is total), a malformed entry
(id missing, zero, or NaN) receives the fallback key built from the section
tag, the array index, and the title, and that fallback key never equals the
key of any entry with a valid numeric catalog id, in any section. -/
theorem malformed_key_never_collides (secTag : String)
    (hsec : secTag = "fav" ∨ secTag = "movie" ∨ secTag = "disliked")
    (ms : List CardEntry) (i : Nat) (m : CardEntry)
    (hm : (m.tmdbId.truthy && !m.tmdbId.isNaNGlobal) = false) :
    (keysOf secTag ms).length = ms.length ∧
    safeKey secTag i m = secTag ++ "-" ++ jsNatToString i ++ "-" ++ m.title ∧
    (∀ (secTag2 : String) (j : Nat) (m2 : CardEntry),
      (m2.tmdbId.truthy && !m2.tmdbId.isNaNGlobal) = true →
      safeKey secTag i m ≠ safeKey secTag2 j m2) := by
  refine ⟨?_, ?_, ?_⟩
  · simp [keysOf]
  · simp [safeKey, hm]
  · intro secTag2 j m2 hm2 heq
    rw [safeKey, if_neg (by simp [hm]), safeKey, if_pos hm2] at heq
    obtain ⟨c, hc1, hc2⟩ := validKey_head m2.tmdbId hm2
    obtain ⟨c0, hc01, hc02⟩ := fallbackKey_head secTag hsec i m.title
    have hsame : (some c0 : Option Char) = some c := by
      rw [← hc01, ← hc1, heq]
    injection hsame with hcc
    subst hcc
    rcases hc02 with h0 | h0 | h0 <;> subst h0 <;>
      rcases hc2 with h2 | h2 | h2 <;> exact absurd h2 (by decide)

/-- Witness for C7: a NaN-id card in the favorites grid gets the fallback
key, and that key collides with no valid numeric key. -/
theorem malformed_key_never_collides_witness :
    (keysOf "fav" [⟨JSNum.num 7, "Seven"⟩, ⟨JSNum.nan, "Broken"⟩]).length
        = ([⟨JSNum.num 7, "Seven"⟩, ⟨JSNum.nan, "Broken"⟩] : List CardEntry).length ∧
    safeKey "fav" 1 ⟨JSNum.nan, "Broken"⟩
        = "fav" ++ "-" ++ jsNatToString 1 ++ "-" ++ "Broken" ∧
    (∀ (secTag2 : String) (j : Nat) (m2 : CardEntry),
      (m2.tmdbId.truthy && !m2.tmdbId.isNaNGlobal) = true →
      safeKey "fav" 1 ⟨JSNum.nan, "Broken"⟩ ≠ safeKey secTag2 j m2) :=
  malformed_key_never_collides "fav" (Or.inl rfl)
    [⟨JSNum.num 7, "Seven"⟩, ⟨JSNum.nan, "Broken"⟩] 1 ⟨JSNum.nan, "Broken"⟩ rfl

/- ------------------------------------------------------------------ -/
/- Preference auto-save (src/unnamed/part_001, App.tsx effects)       -/
/- ------------------------------------------------------------------ -/

/-- One issued auto-save, recording when it fired and the user flag, loaded
flag, and time of the most recent preference mutation at that moment. -/
structure SaveRecord where
  time : Nat
  userAt : Bool
  loadedAt : Bool
  lastMutAt : Nat
deriving DecidableEq, Repr

/-- The auto-save-relevant state of `App`: the clock, the `user` and
`preferencesLoaded` flags, the time of the most recent preference mutation
(the preference object is created at mount, time 0), the pending debounce
timer (absolute fire time), and the saves issued so far. -/
structure AutoSaveState where
  now : Nat
  user : Bool
  loaded : Bool
  lastMut : Nat
  timer : Option Nat
  saves : List SaveRecord
deriving DecidableEq, Repr

/-- State at mount: the effect runs once with no user and the loaded flag
false, so no timer is armed. -/
def initAutoSave : AutoSaveState :=
  { now := 0, user := false, loaded := false, lastMut := 0, timer := none, saves := [] }

/-- The events driving the auto-save effect: auth resolution/logout
(`setUser`), the loaded flag flipping (`setLoaded`), a preference mutation
(`setPreferences`), and the passage of time during which a due timer fires. -/
inductive PrefEvent where
  | setUser (b : Bool)
  | setLoaded (b : Bool)
  | mutate
  | elapse (d : Nat)
deriving DecidableEq, Repr

/-- Re-run of the effect `useEffect(…, [preferences, user, preferencesLoaded])`
after one of its dependencies changed: the cleanup clears the pending
`setTimeout`, and the new run arms a fresh 1000 ms timer only when
`user && preferencesLoaded` (otherwise `return` before `setTimeout`). -/
def rearmTimer (s : AutoSaveState) : AutoSaveState :=
  { s with timer := if s.user && s.loaded then some (s.now + 1000) else none }

/-- One step of the auto-save machine.  State updates re-run the effect
synchronously before any timer callback can run (the JS event loop runs the
re-render ahead of pending timers); `elapse` advances the clock and fires the
armed timer if it comes due in the window. -/
def prefStep (s : AutoSaveState) : PrefEvent → AutoSaveState
  | .setUser b => rearmTimer { s with user := b }
  | .setLoaded b => rearmTimer { s with loaded := b }
  | .mutate => rearmTimer { s with lastMut := s.now }
  | .elapse d =>
      match s.timer with
      | some t =>
          if t ≤ s.now + d then
            { s with now := s.now + d, timer := none,
                     saves := s.saves ++ [⟨t, s.user, s.loaded, s.lastMut⟩] }
          else { s with now := s.now + d }
      | none => { s with now := s.now + d }

/-- Run the auto-save machine from mount. -/
def runPref (evs : List PrefEvent) : AutoSaveState :=
  evs.foldl prefStep initAutoSave

/-- The auto-save invariant: the last mutation is in the past, an armed timer
implies a logged-in user, a completed load, and a fire time at least 1000 ms
after the last mutation, and every issued save was issued under those
conditions. -/
def PrefInv (s : AutoSaveState) : Prop :=
  s.lastMut ≤ s.now ∧
  (∀ t, s.timer = some t → s.user = true ∧ s.loaded = true ∧ s.lastMut + 1000 ≤ t) ∧
  (∀ r ∈ s.saves, r.userAt = true ∧ r.loadedAt = true ∧ r.lastMutAt + 1000 ≤ r.time)

/-- Each auto-save event preserves the invariant. -/
theorem prefInv_step (s : AutoSaveState) (e : PrefEvent) (h : PrefInv s) :
    PrefInv (prefStep s e) := by
  obtain ⟨h1, h2, h3⟩ := h
  cases e with
  | setUser b =>
      refine ⟨h1, ?_, h3⟩
      intro t ht
      have ht2 : (if (b && s.loaded) = true then some (s.now + 1000) else none)
          = some t := ht
      show b = true ∧ s.loaded = true ∧ s.lastMut + 1000 ≤ t
      by_cases hc : (b && s.loaded) = true
      · rw [if_pos hc] at ht2
        injection ht2 with ht3
        rcases Bool.and_eq_true _ _ |>.mp hc with ⟨hb, hl⟩
        exact ⟨hb, hl, by omega⟩
      · rw [if_neg hc] at ht2
        exact Option.noConfusion ht2
  | setLoaded b =>
      refine ⟨h1, ?_, h3⟩
      intro t ht
      have ht2 : (if (s.user && b) = true then some (s.now + 1000) else none)
          = some t := ht
      show s.user = true ∧ b = true ∧ s.lastMut + 1000 ≤ t
      by_cases hc : (s.user && b) = true
      · rw [if_pos hc] at ht2
        injection ht2 with ht3
        rcases Bool.and_eq_true _ _ |>.mp hc with ⟨hb, hl⟩
        exact ⟨hb, hl, by omega⟩
      · rw [if_neg hc] at ht2
        exact Option.noConfusion ht2
  | mutate =>
      refine ⟨le_refl _, ?_, h3⟩
      intro t ht
      have ht2 : (if (s.user && s.loaded) = true then some (s.now + 1000) else none)
          = some t := ht
      show s.user = true ∧ s.loaded = true ∧ s.now + 1000 ≤ t
      by_cases hc : (s.user && s.loaded) = true
      · rw [if_pos hc] at ht2
        injection ht2 with ht3
        rcases Bool.and_eq_true _ _ |>.mp hc with ⟨hb, hl⟩
        exact ⟨hb, hl, by omega⟩
      · rw [if_neg hc] at ht2
        exact Option.noConfusion ht2
  | elapse d =>
      rcases htm : s.timer with _ | t
      · have hstep : prefStep s (.elapse d) = { s with now := s.now + d } := by
          simp [prefStep, htm]
        rw [hstep]
        refine ⟨?_, ?_, ?_⟩
        · show s.lastMut ≤ s.now + d
          omega
        · intro t2 ht2
          have ht3 : s.timer = some t2 := ht2
          rw [htm] at ht3
          exact Option.noConfusion ht3
        · intro r hr
          exact h3 r hr
      · by_cases hd : t ≤ s.now + d
        · have hstep : prefStep s (.elapse d)
              = { s with now := s.now + d, timer := none,
                         saves := s.saves ++ [⟨t, s.user, s.loaded, s.lastMut⟩] } := by
            simp [prefStep, htm, hd]
          rw [hstep]
          refine ⟨?_, ?_, ?_⟩
          · show s.lastMut ≤ s.now + d
            omega
          · intro t2 ht2
            exact Option.noConfusion ht2
          · intro r hr
            rcases List.mem_append.mp hr with hr2 | hr2
            · exact h3 r hr2
            · simp at hr2
              subst hr2
              obtain ⟨hu, hl, hm⟩ := h2 t htm
              exact ⟨hu, hl, hm⟩
        · have hstep : prefStep s (.elapse d) = { s with now := s.now + d } := by
            simp [prefStep, htm, hd]
          rw [hstep]
          refine ⟨?_, ?_, ?_⟩
          · show s.lastMut ≤ s.now + d
            omega
          · intro t2 ht2
            have ht3 : s.timer = some t2 := ht2
            rw [htm] at ht3
            injection ht3 with ht4
            exact ht4 ▸ h2 t htm
          · intro r hr
            exact h3 r hr

/-- The invariant holds after any event sequence from mount. -/
theorem prefInv_run (evs : List PrefEvent) : PrefInv (runPref evs) := by
  suffices h : ∀ s, PrefInv s → PrefInv (evs.foldl prefStep s) by
    refine h initAutoSave ⟨le_refl _, ?_, ?_⟩
    · intro t ht
      simp [initAutoSave] at ht
    · intro r hr
      simp [initAutoSave] at hr
  induction evs with
  | nil => exact fun s hs => hs
  | cons e rest ih =>
      intro s hs
      exact ih _ (prefInv_step s e hs)

/-- C5: a save is never issued while the loaded flag is false or no user is
logged in, and every save fires only once 1000 ms have elapsed since the most
recent preference mutation; moreover each mutation restarts the debounce
timer, cancelling the pending save (the new timer is armed 1000 ms from the
mutation, or cleared when the guard fails). -/
theorem autosave_guarded (evs : List PrefEvent)
    (r : SaveRecord) (hr : r ∈ (runPref evs).saves) :
    (r.userAt = true ∧ r.loadedAt = true ∧ r.lastMutAt + 1000 ≤ r.time) ∧
    (∀ s : AutoSaveState,
      (prefStep s .mutate).timer
        = if s.user && s.loaded then some (s.now + 1000) else none) := by
  refine ⟨(prefInv_run evs).2.2 r hr, ?_⟩
  intro s
  rfl

/-- Witness for C5: a user logs in, the load completes, a mutation happens at
time 0, and after 1500 ms of quiescence the single save fired at time 1000
with both flags set. -/
theorem autosave_guarded_witness :
    ((⟨1000, true, true, 0⟩ : SaveRecord).userAt = true ∧
      (⟨1000, true, true, 0⟩ : SaveRecord).loadedAt = true ∧
      (⟨1000, true, true, 0⟩ : SaveRecord).lastMutAt + 1000
        ≤ (⟨1000, true, true, 0⟩ : SaveRecord).time) ∧
    (∀ s : AutoSaveState,
      (prefStep s .mutate).timer
        = if s.user && s.loaded then some (s.now + 1000) else none) :=
  autosave_guarded
    [PrefEvent.setUser true, PrefEvent.setLoaded true, PrefEvent.mutate,
      PrefEvent.elapse 1500]
    ⟨1000, true, true, 0⟩ (by decide)

/- ------------------------------------------------------------------ -/
/- Movie cache (src/src/services/movieCache.service.ts)               -/
/- ------------------------------------------------------------------ -/

/-- One cache entry: the stored movie list (by catalog id), the `Date.now()`
at store time, and the expiry window in milliseconds. -/
structure CacheEntry where
  movies : List Nat
  timestamp : Nat
  expiryMs : Nat
deriving DecidableEq, Repr

/-- The `Map<string, entry>` of `MovieCacheService`, as an association list
whose head entry for a key is the current binding. -/
abbrev CacheMap := List (String × CacheEntry)

/-- `Map.delete(key)`. -/
def cacheDelete (k : String) (m : CacheMap) : CacheMap :=
  m.filter (fun p => p.1 != k)

/-- `Map.set(key, entry)`: the new binding replaces any previous one. -/
def cacheSet (k : String) (e : CacheEntry) (m : CacheMap) : CacheMap :=
  (k, e) :: cacheDelete k m

/-- `Map.get(key)`. -/
def cacheLookup (k : String) (m : CacheMap) : Option CacheEntry :=
  m.lookup k

/-- Embedding of `setCachedMovies(key, movies, expiryMs)` at clock `now`
(storing `{ movies, timestamp: Date.now(), expiryMs }`); the scheduled
auto-expire `setTimeout` is modelled as a separate `timerFire` event, since
the callback runs only when the event loop gets to it. -/
def setCachedMovies (k : String) (movies : List Nat) (expiryMs now : Nat)
    (m : CacheMap) : CacheMap :=
  cacheSet k ⟨movies, now, expiryMs⟩ m

/-- Embedding of `getCachedMovies(key)` at clock `now`: a missing entry gives
`null`; an entry with `Date.now() - timestamp > expiryMs` is deleted and
gives `null`; otherwise the stored list is returned.  The first component is
the map after the call. -/
def getCachedMovies (m : CacheMap) (k : String) (now : Nat) :
    CacheMap × Option (List Nat) :=
  match cacheLookup k m with
  | none => (m, none)
  | some e =>
      if e.expiryMs < now - e.timestamp then (cacheDelete k m, none)
      else (m, some e.movies)

/-- `clearCache(key)`. -/
def clearCache (k : String) (m : CacheMap) : CacheMap :=
  cacheDelete k m

/-- The `setTimeout(() => cache.delete(key), expiryMs)` callback firing. -/
def timerDelete (k : String) (m : CacheMap) : CacheMap :=
  cacheDelete k m

/-- The cache operations. -/
inductive CacheEvent where
  | set (k : String) (movies : List Nat) (expiry now : Nat)
  | get (k : String) (now : Nat)
  | clear (k : String)
  | timerFire (k : String)
deriving DecidableEq, Repr

/-- Apply one cache event to the map. -/
def cacheStep (m : CacheMap) : CacheEvent → CacheMap
  | .set k mv ex now => setCachedMovies k mv ex now m
  | .get k now => (getCachedMovies m k now).1
  | .clear k => clearCache k m
  | .timerFire k => timerDelete k m

/-- Run a sequence of cache events on the initially empty cache. -/
def runCache (evs : List CacheEvent) : CacheMap :=
  evs.foldl cacheStep []

/-- The entry stored by the most recent `setCachedMovies` for a key in an
event sequence, if any. -/
def lastSet (evs : List CacheEvent) (k : String) : Option CacheEntry :=
  evs.foldl
    (fun acc e =>
      match e with
      | .set k2 mv ex now => if k2 = k then some ⟨mv, now, ex⟩ else acc
      | _ => acc)
    none

/-- Whether a key was cleared by `clearCache` after its most recent
`setCachedMovies` (or cleared without ever being stored). -/
def clearedSince (evs : List CacheEvent) (k : String) : Bool :=
  evs.foldl
    (fun acc e =>
      match e with
      | .set k2 _ _ _ => if k2 = k then false else acc
      | .clear k2 => if k2 = k then true else acc
      | _ => acc)
    false

/-- Deleting a key removes its binding. -/
theorem cacheLookup_delete_self (k : String) (m : CacheMap) :
    cacheLookup k (cacheDelete k m) = none := by
  induction m with
  | nil => rfl
  | cons p rest ih =>
      obtain ⟨k2, e⟩ := p
      by_cases h : k2 = k
      · subst h
        simpa [cacheDelete, List.filter_cons] using ih
      · have hb : (k2 != k) = true := by simp [h]
        have hb2 : (k == k2) = false := by simp [Ne.symm h]
        simpa [cacheDelete, List.filter_cons, hb, cacheLookup, List.lookup, hb2]
          using ih

/-- Deleting another key leaves a key's binding unchanged. -/
theorem cacheLookup_delete_ne (k k2 : String) (h : k ≠ k2) (m : CacheMap) :
    cacheLookup k (cacheDelete k2 m) = cacheLookup k m := by
  induction m with
  | nil => rfl
  | cons p rest ih =>
      obtain ⟨k3, e⟩ := p
      by_cases h3 : k3 = k2
      · subst h3
        have hb2 : (k == k3) = false := by simp [h]
        simpa [cacheDelete, List.filter_cons, cacheLookup, List.lookup, hb2]
          using ih
      · have hb : (k3 != k2) = true := by simp [h3]
        by_cases hk : (k == k3) = true
        · simp [cacheDelete, List.filter_cons, hb, cacheLookup, List.lookup, hk]
        · simpa [cacheDelete, List.filter_cons, hb, cacheLookup, List.lookup, hk]
            using ih

/-- Setting a key binds it to the new entry. -/
theorem cacheLookup_set_self (k : String) (e : CacheEntry) (m : CacheMap) :
    cacheLookup k (cacheSet k e m) = some e := by
  simp [cacheSet, cacheLookup, List.lookup]

/-- Setting another key leaves a key's binding unchanged. -/
theorem cacheLookup_set_ne (k k2 : String) (h : k ≠ k2) (e : CacheEntry)
    (m : CacheMap) : cacheLookup k (cacheSet k2 e m) = cacheLookup k m := by
  have hb2 : (k == k2) = false := by simp [h]
  have hd := cacheLookup_delete_ne k k2 h m
  simpa [cacheSet, cacheLookup, List.lookup, hb2, cacheDelete] using hd

/-- Invariant: after any event sequence, a key is either unbound or bound to
exactly what the most recent `setCachedMovies` for it stored. -/
theorem cache_lookup_lastSet (evs : List CacheEvent) (k : String) :
    cacheLookup k (runCache evs) = none ∨
      cacheLookup k (runCache evs) = lastSet evs k := by
  induction evs using List.reverseRecOn with
  | nil => exact Or.inl rfl
  | append_singleton l e ih =>
      have hrun : runCache (l ++ [e]) = cacheStep (runCache l) e := by
        simp [runCache, List.foldl_append]
      cases e with
      | set k2 mv ex now =>
          have hlast : lastSet (l ++ [CacheEvent.set k2 mv ex now]) k
              = if k2 = k then some ⟨mv, now, ex⟩ else lastSet l k := by
            simp [lastSet, List.foldl_append]
          by_cases h : k2 = k
          · right
            rw [hrun, hlast, if_pos h]
            subst h
            simpa [cacheStep, setCachedMovies] using
              cacheLookup_set_self k2 ⟨mv, now, ex⟩ (runCache l)
          · have hne : k ≠ k2 := fun hh => h hh.symm
            have hstep : cacheLookup k (cacheStep (runCache l)
                (CacheEvent.set k2 mv ex now)) = cacheLookup k (runCache l) := by
              simpa [cacheStep, setCachedMovies] using
                cacheLookup_set_ne k k2 hne ⟨mv, now, ex⟩ (runCache l)
            rw [hrun, hlast, if_neg h, hstep]
            exact ih
      | get k2 now =>
          have hlast : lastSet (l ++ [CacheEvent.get k2 now]) k = lastSet l k := by
            simp [lastSet, List.foldl_append]
          rw [hrun, hlast]
          rcases hl : cacheLookup k2 (runCache l) with _ | e2
          · simpa [cacheStep, getCachedMovies, hl] using ih
          · by_cases hexp : e2.expiryMs < now - e2.timestamp
            · simp [cacheStep, getCachedMovies, hl, hexp]
              by_cases hk : k = k2
              · subst hk
                exact Or.inl (cacheLookup_delete_self k (runCache l))
              · rw [cacheLookup_delete_ne k k2 hk]
                exact ih
            · simpa [cacheStep, getCachedMovies, hl, hexp] using ih
      | clear k2 =>
          have hlast : lastSet (l ++ [CacheEvent.clear k2]) k = lastSet l k := by
            simp [lastSet, List.foldl_append]
          rw [hrun, hlast]
          by_cases hk : k = k2
          · subst hk
            exact Or.inl (by
              simpa [cacheStep, clearCache] using
                cacheLookup_delete_self k (runCache l))
          · have : cacheLookup k (cacheStep (runCache l) (CacheEvent.clear k2))
                = cacheLookup k (runCache l) := by
              simpa [cacheStep, clearCache] using
                cacheLookup_delete_ne k k2 hk (runCache l)
            rw [this]
            exact ih
      | timerFire k2 =>
          have hlast : lastSet (l ++ [CacheEvent.timerFire k2]) k = lastSet l k := by
            simp [lastSet, List.foldl_append]
          rw [hrun, hlast]
          by_cases hk : k = k2
          · subst hk
            exact Or.inl (by
              simpa [cacheStep, timerDelete] using
                cacheLookup_delete_self k (runCache l))
          · have : cacheLookup k (cacheStep (runCache l) (CacheEvent.timerFire k2))
                = cacheLookup k (runCache l) := by
              simpa [cacheStep, timerDelete] using
                cacheLookup_delete_ne k k2 hk (runCache l)
            rw [this]
            exact ih

/-- After a `clearCache` with no later store for the key, the key is unbound
(no later `get` or timer deletion can rebind it). -/
theorem cache_cleared_lookup_none (evs : List CacheEvent) (k : String)
    (h : clearedSince evs k = true) : cacheLookup k (runCache evs) = none := by
  induction evs using List.reverseRecOn with
  | nil => simp [clearedSince] at h
  | append_singleton l e ih =>
      have hrun : runCache (l ++ [e]) = cacheStep (runCache l) e := by
        simp [runCache, List.foldl_append]
      cases e with
      | set k2 mv ex now =>
          have hcl : clearedSince (l ++ [CacheEvent.set k2 mv ex now]) k
              = if k2 = k then false else clearedSince l k := by
            simp [clearedSince, List.foldl_append]
          rw [hcl] at h
          by_cases hk : k2 = k
          · rw [if_pos hk] at h
            exact absurd h (by decide)
          · rw [if_neg hk] at h
            have hne : k ≠ k2 := fun hh => hk hh.symm
            have hstep : cacheLookup k (cacheStep (runCache l)
                (CacheEvent.set k2 mv ex now)) = cacheLookup k (runCache l) := by
              simpa [cacheStep, setCachedMovies] using
                cacheLookup_set_ne k k2 hne ⟨mv, now, ex⟩ (runCache l)
            rw [hrun, hstep]
            exact ih h
      | clear k2 =>
          have hcl : clearedSince (l ++ [CacheEvent.clear k2]) k
              = if k2 = k then true else clearedSince l k := by
            simp [clearedSince, List.foldl_append]
          rw [hcl] at h
          rw [hrun]
          by_cases hk : k2 = k
          · subst hk
            simpa [cacheStep, clearCache] using
              cacheLookup_delete_self k2 (runCache l)
          · rw [if_neg hk] at h
            have hne : k ≠ k2 := fun hh => hk hh.symm
            have hstep : cacheLookup k (cacheStep (runCache l)
                (CacheEvent.clear k2)) = cacheLookup k (runCache l) := by
              simpa [cacheStep, clearCache] using
                cacheLookup_delete_ne k k2 hne (runCache l)
            rw [hstep]
            exact ih h
      | get k2 now =>
          have hcl : clearedSince (l ++ [CacheEvent.get k2 now]) k
              = clearedSince l k := by
            simp [clearedSince, List.foldl_append]
          rw [hcl] at h
          have hnone := ih h
          rw [hrun]
          rcases hl : cacheLookup k2 (runCache l) with _ | e2
          · simpa [cacheStep, getCachedMovies, hl] using hnone
          · by_cases hexp : e2.expiryMs < now - e2.timestamp
            · simp [cacheStep, getCachedMovies, hl, hexp]
              by_cases hk : k = k2
              · subst hk
                exact cacheLookup_delete_self k (runCache l)
              · rw [cacheLookup_delete_ne k k2 hk]
                exact hnone
            · simpa [cacheStep, getCachedMovies, hl, hexp] using hnone
      | timerFire k2 =>
          have hcl : clearedSince (l ++ [CacheEvent.timerFire k2]) k
              = clearedSince l k := by
            simp [clearedSince, List.foldl_append]
          rw [hcl] at h
          have hnone := ih h
          rw [hrun]
          by_cases hk : k = k2
          · subst hk
            simpa [cacheStep, timerDelete] using
              cacheLookup_delete_self k (runCache l)
          · have hstep : cacheLookup k (cacheStep (runCache l)
                (CacheEvent.timerFire k2)) = cacheLookup k (runCache l) := by
              simpa [cacheStep, timerDelete] using
                cacheLookup_delete_ne k k2 hk (runCache l)
            rw [hstep]
            exact hnone

/-- Counterexample for C9: when exactly `expiryMs` milliseconds have elapsed
(here 30000 of 30000, with the auto-expire timer not yet run by the event
loop), `getCachedMovies` still serves the entry — the code expires only on
`elapsed > expiryMs` — although exactly `expiryMs` is not *fewer than*
`expiryMs`. -/
theorem cache_get_claim_false_at_boundary :
    (getCachedMovies (runCache [CacheEvent.set "k" [1] 30000 0]) "k" 30000).2
        = some [1] ∧
      ¬ ((30000 : Nat) - 0 < 30000) := by
  constructor
  · rfl
  · decide

/-- C9 (amended): `getCachedMovies` returns the list stored by the most
recent `setCachedMovies` for the key only if at most `expiryMs` milliseconds
have elapsed since it was stored; an entry found expired (strictly more than
`expiryMs` elapsed) is deleted and `null` is returned; `null` is returned for
any key that was never stored; and `null` is returned for any key cleared
after its most recent store — the cache never serves an entry strictly older
than its expiry. -/
theorem cache_get_freshness (evs : List CacheEvent) (k : String) (now : Nat) :
    (∀ l, (getCachedMovies (runCache evs) k now).2 = some l →
      ∃ ts ex, lastSet evs k = some ⟨l, ts, ex⟩ ∧ now - ts ≤ ex) ∧
    (lastSet evs k = none → (getCachedMovies (runCache evs) k now).2 = none) ∧
    (clearedSince evs k = true →
      (getCachedMovies (runCache evs) k now).2 = none) ∧
    (∀ e, cacheLookup k (runCache evs) = some e →
      e.expiryMs < now - e.timestamp →
      (getCachedMovies (runCache evs) k now).2 = none ∧
      cacheLookup k (getCachedMovies (runCache evs) k now).1 = none) := by
  refine ⟨?_, ?_, ?_, ?_⟩
  · intro l hl
    rcases hlk : cacheLookup k (runCache evs) with _ | ⟨mv, ts, ex⟩
    · simp [getCachedMovies, hlk] at hl
    · by_cases hexp : ex < now - ts
      · simp [getCachedMovies, hlk, hexp] at hl
      · simp [getCachedMovies, hlk, hexp] at hl
        subst hl
        rcases cache_lookup_lastSet evs k with hinv | hinv
        · rw [hinv] at hlk
          exact Option.noConfusion hlk
        · refine ⟨ts, ex, ?_, by omega⟩
          rw [← hinv, hlk]
  · intro hnone
    rcases cache_lookup_lastSet evs k with hinv | hinv
    · simp [getCachedMovies, hinv]
    · rw [hnone] at hinv
      simp [getCachedMovies, hinv]
  · intro hcl
    have hnone := cache_cleared_lookup_none evs k hcl
    simp [getCachedMovies, hnone]
  · intro e hlk hexp
    constructor
    · simp [getCachedMovies, hlk, hexp]
    · simp [getCachedMovies, hlk, hexp]
      exact cacheLookup_delete_self k (runCache evs)

/-- Witness for C9 (amended): on a store followed by a clear, every limb of
the freshness theorem holds concretely — in particular the cleared key reads
back as `null`. -/
theorem cache_get_freshness_witness :
    (∀ l, (getCachedMovies
        (runCache [CacheEvent.set "k" [1, 2] 30000 0, CacheEvent.clear "k"])
        "k" 10000).2 = some l →
      ∃ ts ex, lastSet [CacheEvent.set "k" [1, 2] 30000 0, CacheEvent.clear "k"]
          "k" = some ⟨l, ts, ex⟩ ∧ 10000 - ts ≤ ex) ∧
    (lastSet [CacheEvent.set "k" [1, 2] 30000 0, CacheEvent.clear "k"] "k" = none →
      (getCachedMovies
        (runCache [CacheEvent.set "k" [1, 2] 30000 0, CacheEvent.clear "k"])
        "k" 10000).2 = none) ∧
    (clearedSince [CacheEvent.set "k" [1, 2] 30000 0, CacheEvent.clear "k"] "k"
        = true →
      (getCachedMovies
        (runCache [CacheEvent.set "k" [1, 2] 30000 0, CacheEvent.clear "k"])
        "k" 10000).2 = none) ∧
    (∀ e, cacheLookup "k"
        (runCache [CacheEvent.set "k" [1, 2] 30000 0, CacheEvent.clear "k"])
        = some e →
      e.expiryMs < 10000 - e.timestamp →
      (getCachedMovies
        (runCache [CacheEvent.set "k" [1, 2] 30000 0, CacheEvent.clear "k"])
        "k" 10000).2 = none ∧
      cacheLookup "k" (getCachedMovies
        (runCache [CacheEvent.set "k" [1, 2] 30000 0, CacheEvent.clear "k"])
        "k" 10000).1 = none) :=
  cache_get_freshness [CacheEvent.set "k" [1, 2] 30000 0, CacheEvent.clear "k"]
    "k" 10000
